import Mathlib

/- Verification of the Dyn-X reference-model caching subsystem, a shallow
embedding of dynx/runner/reference_cache.py, dynx/runner/model_cache.py and
dynx/runner/metric_requirements.py.  Python dicts become association lists,
model instances become opaque Nat identities (reference equality is identity
of the Nat), weak references become (identity, liveness) pairs, and external
collaborators (ref_bundle_path, load_reference_model, attribute probes on
runner and model objects) enter as explicit parameters. -/

/-- Association-list lookup (Python dict membership and indexing; `setKey`
keeps keys unique, matching dict semantics, and first match wins). -/
def lookupKey {κ α : Type} [DecidableEq κ] : List (κ × α) → κ → Option α
  | [], _ => none
  | (k', v) :: rest, k => if k' = k then some v else lookupKey rest k

/-- Python dict assignment: replace the binding if the key is present,
otherwise append it (dicts preserve insertion order). -/
def setKey {κ α : Type} [DecidableEq κ] : List (κ × α) → κ → α → List (κ × α)
  | [], k, v => [(k, v)]
  | (k', v') :: rest, k, v =>
      if k' = k then (k, v) :: rest else (k', v') :: setKey rest k v

/-- Python `d[k] = d.get(k, 0) + 1`, the access-count bump both caches use
on a hit. -/
def bumpCount {κ : Type} [DecidableEq κ] (l : List (κ × Nat)) (k : κ) : List (κ × Nat) :=
  setKey l k ((lookupKey l k).getD 0 + 1)

/-- Python `del d[k]`. -/
def eraseKey {κ α : Type} [DecidableEq κ] : List (κ × α) → κ → List (κ × α)
  | [], _ => []
  | (k', v') :: rest, k => if k' = k then rest else (k', v') :: eraseKey rest k

/-- Insertion into an ascending list. -/
def insertAsc {α : Type} (le : α → α → Bool) (x : α) : List α → List α
  | [] => [x]
  | y :: ys => if le x y then x :: y :: ys else y :: insertAsc le x ys

/-- Insertion sort, the embedding of Python `sorted` (stable, ascending). -/
def sortedBy {α : Type} (le : α → α → Bool) : List α → List α
  | [] => []
  | x :: xs => insertAsc le x (sortedBy le xs)

def natLe (a b : Nat) : Bool := decide (a ≤ b)

def strLe (a b : String) : Bool := decide (a ≤ b)

/-- Python set insertion (`set.add` / element of `set.update`); order is
irrelevant because every consumer sorts before exposing the set. -/
def addToSet {α : Type} [DecidableEq α] (s : List α) (x : α) : List α :=
  if x ∈ s then s else s ++ [x]

/-- Python `set.update(xs)`. -/
def unionSet {α : Type} [DecidableEq α] (s : List α) (xs : List α) : List α :=
  xs.foldl addToSet s

/- ------------------------------------------------------------------ -/
/- metric_requirements.py                                              -/
/- ------------------------------------------------------------------ -/

/-- The METRIC_REQUIREMENTS table of metric_requirements.py: metric name ↦
(periods needed, stages per period), where a `none` stage entry means all
stages of that period. -/
def METRIC_REQUIREMENTS : List (String × (List Nat × List (Nat × Option (List String)))) :=
  [ ("euler_error", ([0, 1], [(0, some ["OWNC"]), (1, none)])),
    ("dev_c_L2", ([0], [(0, some ["OWNC"])])),
    ("dev_c_Linf", ([0], [(0, some ["OWNC"])])),
    ("dev_a_L2", ([0], [(0, some ["OWNC"])])),
    ("dev_a_Linf", ([0], [(0, some ["OWNC"])])),
    ("dev_v_L2", ([0], [(0, some ["OWNC"])])),
    ("dev_v_Linf", ([0], [(0, some ["OWNC"])])),
    ("dev_pol_L2", ([0], [(0, some ["OWNC"])])),
    ("dev_pol_Linf", ([0], [(0, some ["OWNC"])])),
    ("plot_egm", ([0], [(0, some ["OWNC"])])),
    ("plot_policy", ([0], [(0, some ["TENU", "OWNH", "OWNC", "RNTH", "RNTC"])])),
    ("plot_value_q", ([0], [(0, some ["OWNC"])])),
    ("plot_c_comparison", ([0], [(0, some ["OWNC"])])),
    ("plot_v_comparison", ([0], [(0, some ["OWNC"])])),
    ("plot_a_comparison", ([0], [(0, some ["OWNC"])])),
    ("plot_h_comparison", ([0], [(0, some ["OWNH"])])) ]

/-- Embedding of get_metric_requirements: combined loading requirements for a
list of metric names.  On the empty input the source returns `None, None`
(here `(none, none)`); otherwise it accumulates the union of periods and the
per-period union of stage sets over the metrics found in the table (a `none`
stage set means all stages and absorbs any union) and sorts the results. -/
def get_metric_requirements (metric_names : List String) :
    Option (List Nat) × Option (List (Nat × Option (List String))) :=
  if metric_names = [] then (none, none)
  else
    let acc := metric_names.foldl
      (fun (acc : List Nat × List (Nat × Option (List String))) metric =>
        match lookupKey METRIC_REQUIREMENTS metric with
        | none => acc
        | some pr =>
          let all_periods := unionSet acc.1 pr.1
          let stages_by_period := pr.2.foldl
            (fun (sbp : List (Nat × Option (List String))) entry =>
              let cur :=
                match lookupKey sbp entry.1 with
                | some v => v
                | none =>
                  match entry.2 with
                  | some _ => some []
                  | none => none
              let newv :=
                match entry.2, cur with
                | some sl, some c => some (unionSet c sl)
                | some _, none => none
                | none, _ => none
              setKey sbp entry.1 newv) acc.2
          (all_periods, stages_by_period))
      ([], [])
    (some (sortedBy natLe acc.1),
     some (acc.2.map (fun e => (e.1, e.2.map (sortedBy strLe)))))

/- ------------------------------------------------------------------ -/
/- reference_cache.py                                                  -/
/- ------------------------------------------------------------------ -/

/-- The attributes defined on class ReferenceModelCache in
reference_cache.py: its methods plus the instance fields set in __init__.
The helper _get_superset_requirements is NOT among them — in the source it
is a local function nested inside the module-level release_strong_references
function, so it is neither a method of the class nor an instance field. -/
def referenceModelCacheAttrs : List String :=
  ["__init__", "get_cache_key", "_cleanup_model_memory", "get",
   "clear_strong_refs", "clear", "_cache", "_strong_refs", "_access_count"]

/-- Python attribute lookup on a ReferenceModelCache instance succeeds iff
the name is among the attributes of the instance or its class. -/
def hasAttr (attrs : List String) (a : String) : Bool := attrs.contains a

inductive PyError where
  | attributeError
deriving DecidableEq, Repr

/-- State of a ReferenceModelCache instance.  Model instances are opaque and
identified by a Nat; a weak reference is a pair of the model identity and a
liveness flag (Python weakref.ref dereference yields None once collected). -/
structure RefCacheState where
  _cache : List (String × (Nat × Bool))
  _strong_refs : List (String × Nat)
  _access_count : List (String × Nat)
deriving DecidableEq, Repr

/-- Embedding of ReferenceModelCache.get_cache_key.  The external
collaborators enter as parameters: refPath is the result of
ref_bundle_path(runner, x); refParamsHash is the md5 digest of the pickled
runner.ref_params when that attribute is present and not None; xHash is the
md5 digest of the pickled parameter vector.  The requirements argument of the
source is unused there and omitted. -/
def ReferenceModelCache.get_cache_key (refPath : Option String)
    (refParamsHash : Option String) (xHash : String) : String :=
  (match refPath with
   | some p => p
   | none =>
     match refParamsHash with
     | some h => "ref_" ++ h
     | none => "ref_fallback_" ++ xHash) ++ "_superset_p0-1"

/-- Load-and-store tail of ReferenceModelCache.get: invoke the loader (the
Bool in the result records that the loader was reached) and, when it returns
a model, pass it through the memory trimmer (an in-place mutation preserving
the model's identity) and store it under a weak and a strong reference with
access count 1. -/
def ReferenceModelCache.loadStore (st : RefCacheState) (cache_key : String)
    (loadResult : Option Nat) : Option Nat × RefCacheState × Bool :=
  match loadResult with
  | some model =>
      (some model,
       { st with _cache := setKey st._cache cache_key (model, true),
                 _strong_refs := setKey st._strong_refs cache_key model,
                 _access_count := setKey st._access_count cache_key 1 }, true)
  | none => (none, st, true)

/-- Body of ReferenceModelCache.get from its second statement on: derive the
cache key, return a live cached model with a bumped access count, drop a dead
weak entry, otherwise load and store.  In the source this code is
unreachable, because the first statement of get raises (see
ReferenceModelCache.get). -/
def ReferenceModelCache.getBody (st : RefCacheState) (refPath : Option String)
    (refParamsHash : Option String) (xHash : String) (loadResult : Option Nat) :
    Option Nat × RefCacheState × Bool :=
  let cache_key := ReferenceModelCache.get_cache_key refPath refParamsHash xHash
  match lookupKey st._cache cache_key with
  | some (model, true) =>
      (some model,
       { st with _access_count := bumpCount st._access_count cache_key }, false)
  | some (_, false) =>
      ReferenceModelCache.loadStore
        { st with _cache := eraseKey st._cache cache_key,
                  _access_count := eraseKey st._access_count cache_key }
        cache_key loadResult
  | none => ReferenceModelCache.loadStore st cache_key loadResult

/-- Embedding of ReferenceModelCache.get.  Its first statement evaluates
self._get_superset_requirements(); that name is not an attribute of the class
(the helper is nested inside release_strong_references in the source), so the
attribute lookup raises AttributeError before the cache key is derived, the
cache consulted, or the loader invoked.  The cleanup_for_metrics flag only
controls the in-place trim, which preserves model identity. -/
def ReferenceModelCache.get (st : RefCacheState) (refPath : Option String)
    (refParamsHash : Option String) (xHash : String) (loadResult : Option Nat)
    (cleanup_for_metrics : Bool) :
    Except PyError (Option Nat × RefCacheState × Bool) :=
  if hasAttr referenceModelCacheAttrs "_get_superset_requirements" then
    Except.ok (ReferenceModelCache.getBody st refPath refParamsHash xHash loadResult)
  else
    Except.error PyError.attributeError

/- ------------------------------------------------------------------ -/
/- model_cache.py                                                      -/
/- ------------------------------------------------------------------ -/

/-- State of a UnifiedModelCache instance. -/
structure UCState where
  _cache : List (String × (Nat × Bool))
  _strong_refs : List (String × Nat)
  _access_count : List (String × Nat)
  _method_to_model : List (String × String)
deriving DecidableEq, Repr

/-- Result of UnifiedModelCache.get_reference_model: the returned model (if
any), the state after the call, and whether the external loader was
invoked. -/
structure URes where
  result : Option Nat
  state : UCState
  loaderInvoked : Bool
deriving DecidableEq, Repr

/-- Embedding of UnifiedModelCache.get_model_cache_key. -/
def UnifiedModelCache.get_model_cache_key (model_id : String)
    (periods : Option (List Nat)) : String :=
  match periods with
  | none => model_id ++ "_full"
  | some ps =>
      model_id ++ "_p" ++ String.intercalate "-" ((sortedBy natLe ps).map toString)

/-- The superset reference key formed inside
UnifiedModelCache.get_reference_model and in the tail of
register_method_model: get_model_cache_key(model_id, [0, 1]) +
"_superset_p0-1". -/
def UnifiedModelCache.supersetRefKey (model_id : String) : String :=
  UnifiedModelCache.get_model_cache_key model_id (some [0, 1]) ++ "_superset_p0-1"

/-- The duck-typed model-identity probe at the top of register_method_model:
model._bundle_path if present, else model.bundle_path, else a synthetic
identity of the form method plus "_bundle".  The two attribute probes enter
as the optional string parameters. -/
def UnifiedModelCache.modelId (method : String)
    (bundlePathAttr bundlePathAttr2 : Option String) : String :=
  match bundlePathAttr with
  | some p => p
  | none =>
    match bundlePathAttr2 with
    | some p => p
    | none => method ++ "_bundle"

/-- Embedding of UnifiedModelCache.register_method_model.  The model is
stored under a weak and a strong reference with access count 1 and recorded
in the method map; when the loaded periods are exactly [0, 1] or unspecified,
the model is additionally registered (weak reference only) under the superset
key. -/
def UnifiedModelCache.register_method_model (st : UCState) (method : String)
    (model : Nat) (bundlePathAttr bundlePathAttr2 : Option String)
    (periods : Option (List Nat)) : UCState :=
  let model_id := UnifiedModelCache.modelId method bundlePathAttr bundlePathAttr2
  let cache_key := UnifiedModelCache.get_model_cache_key model_id periods
  let st' : UCState :=
    { st with _cache := setKey st._cache cache_key (model, true),
              _strong_refs := setKey st._strong_refs cache_key model,
              _access_count := setKey st._access_count cache_key 1,
              _method_to_model := setKey st._method_to_model method cache_key }
  if periods = some [0, 1] ∨ periods = none then
    let superset_key := UnifiedModelCache.supersetRefKey model_id
    { st' with _cache := setKey st'._cache superset_key (model, true) }
  else st'

/-- Final tier of UnifiedModelCache.get_reference_model: call the external
loader; cache the result under the superset key (weak reference, strong
reference, access count 1) only when both a model and a reference bundle path
exist; return the loader's result either way. -/
def UnifiedModelCache.loadAndCache (st : UCState) (refPath : Option String)
    (loadResult : Option Nat) : URes :=
  match loadResult with
  | some model =>
    match refPath with
    | some ref_path =>
      let cache_key := UnifiedModelCache.supersetRefKey ref_path
      ⟨some model,
       { st with _cache := setKey st._cache cache_key (model, true),
                 _strong_refs := setKey st._strong_refs cache_key model,
                 _access_count := setKey st._access_count cache_key 1 }, true⟩
    | none => ⟨some model, st, true⟩
  | none => ⟨none, st, true⟩

/-- Middle tier of UnifiedModelCache.get_reference_model, reached when the
baseline lookup missed: when the reference bundle path resolves, check for a
live entry under the superset key; otherwise (or on a miss or dead weak
reference) fall through to the loader. -/
def UnifiedModelCache.refPathLookup (st : UCState) (refPath : Option String)
    (loadResult : Option Nat) : URes :=
  match refPath with
  | some ref_path =>
    let cache_key := UnifiedModelCache.supersetRefKey ref_path
    match lookupKey st._cache cache_key with
    | some (model, true) =>
        ⟨some model,
         { st with _access_count := bumpCount st._access_count cache_key }, false⟩
    | _ => UnifiedModelCache.loadAndCache st refPath loadResult
  | none => UnifiedModelCache.loadAndCache st refPath loadResult

/-- Embedding of UnifiedModelCache.get_reference_model.  External
collaborators enter as parameters: baselineMethodAttr is the runner's
baseline_method attribute (the getattr default is "VFI_HD_GRID"), refPath the
result of ref_bundle_path(runner, x), loadResult the model produced by
load_reference_model under the fixed superset requirement (none when the
loader yields no model).  First tier: a live registration for the baseline
method is returned directly with a bumped access count and no load. -/
def UnifiedModelCache.get_reference_model (st : UCState)
    (baselineMethodAttr : Option String) (refPath : Option String)
    (loadResult : Option Nat) : URes :=
  let baseline_method := baselineMethodAttr.getD "VFI_HD_GRID"
  match lookupKey st._method_to_model baseline_method with
  | some cache_key =>
    match lookupKey st._cache cache_key with
    | some (model, true) =>
        ⟨some model,
         { st with _access_count := bumpCount st._access_count cache_key }, false⟩
    | _ => UnifiedModelCache.refPathLookup st refPath loadResult
  | none => UnifiedModelCache.refPathLookup st refPath loadResult

/-- Embedding of UnifiedModelCache.clear_strong_refs (logging and gc.collect
do not touch the cache state). -/
def UnifiedModelCache.clear_strong_refs (st : UCState) : UCState :=
  { st with _strong_refs := [] }

/-- Iterated clear_strong_refs, standing for any number of strong-reference
releases between two lookups. -/
def iterClearStrong : Nat → UCState → UCState
  | 0, st => st
  | n + 1, st => iterClearStrong n (UnifiedModelCache.clear_strong_refs st)

/-- First tier of get_reference_model viewed as a function of the method map
and the weak-reference table: the model found through a live baseline
registration, if any. -/
def baselineHit (mm : List (String × String)) (c : List (String × (Nat × Bool)))
    (b : Option String) : Option Nat :=
  match lookupKey mm (b.getD "VFI_HD_GRID") with
  | some cache_key =>
    match lookupKey c cache_key with
    | some (model, true) => some model
    | _ => none
  | none => none

/-- Second tier of get_reference_model viewed as a function of the
weak-reference table: the live model under the superset reference key, if
any. -/
def supersetHit (c : List (String × (Nat × Bool))) (refPath : Option String) :
    Option Nat :=
  match refPath with
  | some p =>
    match lookupKey c (UnifiedModelCache.supersetRefKey p) with
    | some (model, true) => some model
    | _ => none
  | none => none

/- ------------------------------------------------------------------ -/
/- The memory trimmer (_cleanup_model_memory in reference_cache.py)    -/
/- ------------------------------------------------------------------ -/

/-- The _jit solution record walked by _cleanup_model_memory.  Every field is
doubly optional: the outer layer records Python attribute presence (the
hasattr probes) and the inner layer the stored value, none being Python None;
array payloads are abstracted to Nat identities. -/
structure Jit where
  Q : Option (Option Nat)
  lambda_ : Option (Option Nat)
  vlu : Option (Option Nat)
  policy : Option (Option Nat)
deriving DecidableEq, Repr

/-- A perch's solution object.  obj carries the optional _jit attribute (an
absent attribute and a None-valued one behave identically under the hasattr
probes, so they are collapsed) and the optional EGM attribute.  raising
stands for a synthetic solution object whose attribute access raises an
exception other than AttributeError (hasattr swallows AttributeError, so an
AttributeError-raising object behaves like obj none none). -/
inductive SolObj where
  | obj (jit : Option Jit) (EGM : Option (Option Nat))
  | raising
deriving DecidableEq, Repr

/-- A perch.  sol none covers both a missing sol attribute and sol None,
which the source's guard treats identically. -/
structure Perch where
  sol : Option SolObj
deriving DecidableEq, Repr

structure Stage where
  perches : List (String × Perch)
deriving DecidableEq, Repr

structure Period where
  stages : List (String × Stage)
deriving DecidableEq, Repr

/-- The structural model shape consumed by the trimmer: periods_list →
stages → perches (dicts iterate in insertion order). -/
structure Model where
  periods_list : List Period
deriving DecidableEq, Repr

/-- Effect of the _jit branch of _cleanup_model_memory: where the Q, lambda_
and vlu attributes are present they are set to None; policy is untouched. -/
def trim_jit (j : Jit) : Jit :=
  ⟨j.Q.map (fun _ => none), j.lambda_.map (fun _ => none),
   j.vlu.map (fun _ => none), j.policy⟩

/-- Effect of one loop body on a solution object; none signals that attribute
access raised and the exception is propagating. -/
def trimSolObj : SolObj → Option SolObj
  | SolObj.obj jit egm =>
      some (SolObj.obj (jit.map trim_jit) (egm.map (fun _ => none)))
  | SolObj.raising => none

/-- Effect on one perch; a perch without a live sol is skipped untouched. -/
def trimPerch (p : Perch) : Option Perch :=
  match p.sol with
  | none => some p
  | some s => (trimSolObj s).map (fun s' => ⟨some s'⟩)

/-- Innermost loop of _cleanup_model_memory over one stage's perches.  The
Bool is false when a perch raised: the walk stops there, leaving the raising
perch and everything after it unchanged, because the try/except sits outside
all three loops. -/
def runPerches : List (String × Perch) → List (String × Perch) × Bool
  | [] => ([], true)
  | (n, p) :: rest =>
    match trimPerch p with
    | none => ((n, p) :: rest, false)
    | some p' =>
      let r := runPerches rest
      ((n, p') :: r.1, r.2)

/-- Middle loop over a period's stages, aborting once a perch raised. -/
def runStages : List (String × Stage) → List (String × Stage) × Bool
  | [] => ([], true)
  | (n, s) :: rest =>
    let r := runPerches s.perches
    if r.2 then
      let rs := runStages rest
      ((n, ⟨r.1⟩) :: rs.1, rs.2)
    else ((n, ⟨r.1⟩) :: rest, false)

/-- Outer loop over periods_list. -/
def runPeriods : List Period → List Period × Bool
  | [] => ([], true)
  | p :: rest =>
    let r := runStages p.stages
    if r.2 then
      let rs := runPeriods rest
      (⟨r.1⟩ :: rs.1, rs.2)
    else (⟨r.1⟩ :: rest, false)

/-- Embedding of ReferenceModelCache._cleanup_model_memory: the walk mutates
the structure in place and the try/except around the whole walk absorbs any
exception, so the partially-trimmed model is what remains; gc.collect and
logging are effect-free. -/
def _cleanup_model_memory (m : Model) : Model :=
  ⟨(runPeriods m.periods_list).1⟩

/-- Per-perch trim outcome on a perch that does not raise. -/
def trimPerchT (p : Perch) : Perch := (trimPerch p).getD p

def trimPerchPairT (pr : String × Perch) : String × Perch := (pr.1, trimPerchT pr.2)

def trimStagePairT (ps : String × Stage) : String × Stage :=
  (ps.1, ⟨ps.2.perches.map trimPerchPairT⟩)

def trimPeriodT (per : Period) : Period := ⟨per.stages.map trimStagePairT⟩

/-- A perch whose solution object does not raise on attribute access. -/
def perchFine (p : Perch) : Bool :=
  match p.sol with
  | some SolObj.raising => false
  | _ => true

def perchesFine (l : List (String × Perch)) : Bool :=
  l.all (fun pr => perchFine pr.2)

def stagesFine (l : List (String × Stage)) : Bool :=
  l.all (fun ps => perchesFine ps.2.perches)

def periodsFine (l : List Period) : Bool :=
  l.all (fun per => stagesFine per.stages)

/-- No perch of the model raises on attribute access. -/
def noRaisingB (m : Model) : Bool := periodsFine m.periods_list

/-- All perches of a model in walk order. -/
def modelPerches (m : Model) : List (String × Perch) :=
  m.periods_list.flatMap (fun per => per.stages.flatMap (fun ps => ps.2.perches))

/-- The per-perch effect the trimmer is claimed to have: a perch without a
live solution object is untouched; otherwise the present Q, lambda_ and vlu
attributes of the solution become None and the EGM attribute becomes None,
while the policy attribute is unchanged. -/
def PerchTrimmed (old new : Perch) : Prop :=
  match old.sol with
  | none => new = old
  | some (SolObj.obj jit egm) =>
      new.sol = some (SolObj.obj
        (jit.map (fun j => ⟨j.Q.map (fun _ => none), j.lambda_.map (fun _ => none),
                            j.vlu.map (fun _ => none), j.policy⟩))
        (egm.map (fun _ => none)))
  | some SolObj.raising => False

/- ------------------------------------------------------------------ -/
/- Dictionary lemmas                                                   -/
/- ------------------------------------------------------------------ -/

theorem lookupKey_setKey_self {κ α : Type} [DecidableEq κ]
    (l : List (κ × α)) (k : κ) (v : α) :
    lookupKey (setKey l k v) k = some v := by
  induction l with
  | nil => simp [setKey, lookupKey]
  | cons hd tl ih =>
    obtain ⟨k', v'⟩ := hd
    by_cases h : k' = k
    · simp [setKey, lookupKey, h]
    · simp [setKey, lookupKey, h, ih]

theorem lookupKey_setKey_ne {κ α : Type} [DecidableEq κ]
    (l : List (κ × α)) (k k' : κ) (v : α) (h : k' ≠ k) :
    lookupKey (setKey l k v) k' = lookupKey l k' := by
  induction l with
  | nil => simp [setKey, lookupKey, Ne.symm h]
  | cons hd tl ih =>
    obtain ⟨k'', v''⟩ := hd
    by_cases hk : k'' = k
    · subst hk
      simp [setKey, lookupKey, Ne.symm h]
    · simp [setKey, lookupKey, hk, ih]

/-- A period-scoped cache key can never equal the superset-suffixed key built
from the same model identity: the latter is 14 characters longer. -/
theorem key_ne_supersetRefKey (model_id : String) :
    UnifiedModelCache.get_model_cache_key model_id (some [0, 1]) ≠
      UnifiedModelCache.supersetRefKey model_id := by
  intro h
  have hlen := congrArg String.length h
  rw [UnifiedModelCache.supersetRefKey, String.length_append] at hlen
  have he : ("_superset_p0-1" : String).length = 14 := rfl
  rw [he] at hlen
  omega

/- ------------------------------------------------------------------ -/
/- Theorems for claims C1 and C2                                       -/
/- ------------------------------------------------------------------ -/

/-- C2: for every cache state, resolved reference path, hash fallbacks,
loader outcome and cleanup flag, ReferenceModelCache.get raises
AttributeError before consulting the cache or the loader, because
_get_superset_requirements is nested inside release_strong_references instead
of being a method of the class: the error return carries no new state and no
loader invocation. -/
theorem refcache_get_always_raises_attribute_error
    (st : RefCacheState) (refPath refParamsHash : Option String)
    (xHash : String) (loadResult : Option Nat) (cleanup_for_metrics : Bool) :
    ReferenceModelCache.get st refPath refParamsHash xHash loadResult
      cleanup_for_metrics = Except.error PyError.attributeError := by
  have h : hasAttr referenceModelCacheAttrs "_get_superset_requirements" = false := by
    decide
  simp [ReferenceModelCache.get, h]

/-- C1 (evaluation at the failing input): on a fresh ReferenceModelCache with
a resolving reference bundle path and a loader that would return a model,
get raises AttributeError instead of performing the hit/miss protocol the
claim describes, so nothing is cached and no model is returned. -/
theorem refcache_get_attribute_error_concrete :
    ReferenceModelCache.get ⟨[], [], []⟩ (some "bundle_path") none "ab12cd34"
      (some 7) true = Except.error PyError.attributeError := rfl

/- ------------------------------------------------------------------ -/
/- Theorems for claim C9                                               -/
/- ------------------------------------------------------------------ -/

/-- C9 counterexample: get_metric_requirements applied to the empty list does
not return an empty requirement (no periods, no stages, the value the
combinator produces for a non-empty list of unknown metric names); it returns
the `(None, None)` sentinel instead. -/
theorem empty_metrics_not_empty_requirement :
    get_metric_requirements [] = (none, none) ∧
    get_metric_requirements [] ≠ (some [], some []) ∧
    get_metric_requirements ["unknown_metric"] = (some [], some []) := by
  refine ⟨rfl, by decide, rfl⟩

/-- C9 amended: get_metric_requirements applied to an empty list of metric
names returns the `(None, None)` sentinel — meaning no requirement was
specified, a value distinct from the explicit empty requirement — rather than
failing. -/
theorem empty_metrics_returns_none_none :
    get_metric_requirements [] = (none, none) := rfl


/- ------------------------------------------------------------------ -/
/- Case lemmas for UnifiedModelCache.get_reference_model               -/
/- ------------------------------------------------------------------ -/

theorem get_eq_of_baselineHit (st : UCState) (b : Option String)
    (rp : Option String) (lr : Option Nat) (m : Nat)
    (h : baselineHit st._method_to_model st._cache b = some m) :
    ∃ ck, UnifiedModelCache.get_reference_model st b rp lr =
      ⟨some m, { st with _access_count := bumpCount st._access_count ck }, false⟩ := by
  rcases hm : lookupKey st._method_to_model (b.getD "VFI_HD_GRID") with _ | ck
  · simp [baselineHit, hm] at h
  · rcases hc : lookupKey st._cache ck with _ | ⟨model, alive⟩
    · simp [baselineHit, hm, hc] at h
    · cases alive
      · simp [baselineHit, hm, hc] at h
      · simp only [baselineHit, hm, hc, Option.some.injEq] at h
        subst h
        refine ⟨ck, ?_⟩
        simp [UnifiedModelCache.get_reference_model, hm, hc]

theorem get_eq_of_supersetHit (st : UCState) (b : Option String)
    (rp : Option String) (lr : Option Nat) (m : Nat)
    (hb : baselineHit st._method_to_model st._cache b = none)
    (hs : supersetHit st._cache rp = some m) :
    ∃ ck, UnifiedModelCache.get_reference_model st b rp lr =
      ⟨some m, { st with _access_count := bumpCount st._access_count ck }, false⟩ := by
  rcases rp with _ | p
  · simp [supersetHit] at hs
  · rcases hsk : lookupKey st._cache (UnifiedModelCache.supersetRefKey p) with _ | ⟨model, alive⟩
    · simp [supersetHit, hsk] at hs
    · cases alive
      · simp [supersetHit, hsk] at hs
      · simp only [supersetHit, hsk, Option.some.injEq] at hs
        subst hs
        refine ⟨UnifiedModelCache.supersetRefKey p, ?_⟩
        rcases hm : lookupKey st._method_to_model (b.getD "VFI_HD_GRID") with _ | ck
        · simp [UnifiedModelCache.get_reference_model,
            UnifiedModelCache.refPathLookup, hm, hsk]
        · rcases hc : lookupKey st._cache ck with _ | ⟨model', alive'⟩
          · simp [UnifiedModelCache.get_reference_model,
              UnifiedModelCache.refPathLookup, hm, hc, hsk]
          · cases alive'
            · simp [UnifiedModelCache.get_reference_model,
                UnifiedModelCache.refPathLookup, hm, hc, hsk]
            · simp [baselineHit, hm, hc] at hb

theorem get_eq_load (st : UCState) (b : Option String)
    (rp : Option String) (lr : Option Nat)
    (hb : baselineHit st._method_to_model st._cache b = none)
    (hs : supersetHit st._cache rp = none) :
    UnifiedModelCache.get_reference_model st b rp lr =
      UnifiedModelCache.loadAndCache st rp lr := by
  have htail : UnifiedModelCache.refPathLookup st rp lr =
      UnifiedModelCache.loadAndCache st rp lr := by
    rcases rp with _ | p
    · simp [UnifiedModelCache.refPathLookup]
    · rcases hsk : lookupKey st._cache (UnifiedModelCache.supersetRefKey p) with _ | ⟨mo, alive⟩
      · simp [UnifiedModelCache.refPathLookup, hsk]
      · cases alive
        · simp [UnifiedModelCache.refPathLookup, hsk]
        · simp [supersetHit, hsk] at hs
  rcases hm : lookupKey st._method_to_model (b.getD "VFI_HD_GRID") with _ | ck
  · simpa [UnifiedModelCache.get_reference_model, hm] using htail
  · rcases hc : lookupKey st._cache ck with _ | ⟨mo', alive'⟩
    · simpa [UnifiedModelCache.get_reference_model, hm, hc] using htail
    · cases alive'
      · simpa [UnifiedModelCache.get_reference_model, hm, hc] using htail
      · simp [baselineHit, hm, hc] at hb

theorem loadAndCache_result (st : UCState) (rp : Option String) (lr : Option Nat) :
    (UnifiedModelCache.loadAndCache st rp lr).result = lr := by
  rcases lr with _ | m
  · rfl
  · rcases rp with _ | p <;> rfl

theorem loadAndCache_method (st : UCState) (rp : Option String) (lr : Option Nat) :
    (UnifiedModelCache.loadAndCache st rp lr).state._method_to_model =
      st._method_to_model := by
  rcases lr with _ | m
  · rfl
  · rcases rp with _ | p <;> rfl

theorem iterClearStrong_cache (n : Nat) (st : UCState) :
    (iterClearStrong n st)._cache = st._cache ∧
    (iterClearStrong n st)._method_to_model = st._method_to_model := by
  induction n generalizing st with
  | zero => exact ⟨rfl, rfl⟩
  | succ k ih =>
    simpa [iterClearStrong, UnifiedModelCache.clear_strong_refs] using ih _

/- ------------------------------------------------------------------ -/
/- Theorems for claim C3                                               -/
/- ------------------------------------------------------------------ -/

/-- C3 counterexample: at the concrete resolving bundle path "b", the
superset cache key derived by ReferenceModelCache.get_cache_key differs from
the superset reference key under which UnifiedModelCache.get_reference_model
looks up and stores models. -/
theorem superset_keys_differ_concrete :
    ReferenceModelCache.get_cache_key (some "b") none "x" ≠
      UnifiedModelCache.supersetRefKey "b" := by decide

/-- C3 amended: for every runner and parameter vector whose reference bundle
path resolves to a path p, ReferenceModelCache.get_cache_key yields
p ++ "_superset_p0-1" while UnifiedModelCache.get_reference_model uses
p ++ "_p0-1_superset_p0-1"; the keys share the path identity and the superset
suffix but the unified key carries an extra "_p0-1" period segment, so the
two components never produce the same key for the same artifact. -/
theorem superset_key_shapes (p : String) (refParamsHash : Option String)
    (xHash : String) :
    ReferenceModelCache.get_cache_key (some p) refParamsHash xHash =
        p ++ "_superset_p0-1" ∧
    UnifiedModelCache.supersetRefKey p = p ++ "_p0-1_superset_p0-1" ∧
    ReferenceModelCache.get_cache_key (some p) refParamsHash xHash ≠
      UnifiedModelCache.supersetRefKey p := by
  have h1 : ReferenceModelCache.get_cache_key (some p) refParamsHash xHash =
      p ++ "_superset_p0-1" := rfl
  have h2 : UnifiedModelCache.supersetRefKey p = p ++ "_p0-1_superset_p0-1" := by
    show ((p ++ "_p") ++ "0-1") ++ "_superset_p0-1" = p ++ "_p0-1_superset_p0-1"
    rw [String.append_assoc, String.append_assoc]
    rfl
  refine ⟨h1, h2, ?_⟩
  rw [h1, h2]
  intro hc
  have hlen := congrArg String.length hc
  rw [String.length_append, String.length_append] at hlen
  have e1 : ("_superset_p0-1" : String).length = 14 := rfl
  have e2 : ("_p0-1_superset_p0-1" : String).length = 19 := rfl
  rw [e1, e2] at hlen
  omega

/- ------------------------------------------------------------------ -/
/- Theorems for claims C6 and C10                                      -/
/- ------------------------------------------------------------------ -/

theorem register_method_model_state (st : UCState) (method : String)
    (model : Nat) (bp1 bp2 : Option String) :
    UnifiedModelCache.register_method_model st method model bp1 bp2 (some [0, 1]) =
      { _cache := setKey
            (setKey st._cache
              (UnifiedModelCache.get_model_cache_key
                (UnifiedModelCache.modelId method bp1 bp2) (some [0, 1]))
              (model, true))
            (UnifiedModelCache.supersetRefKey (UnifiedModelCache.modelId method bp1 bp2))
            (model, true),
        _strong_refs := setKey st._strong_refs
            (UnifiedModelCache.get_model_cache_key
              (UnifiedModelCache.modelId method bp1 bp2) (some [0, 1])) model,
        _access_count := setKey st._access_count
            (UnifiedModelCache.get_model_cache_key
              (UnifiedModelCache.modelId method bp1 bp2) (some [0, 1])) 1,
        _method_to_model := setKey st._method_to_model method
            (UnifiedModelCache.get_model_cache_key
              (UnifiedModelCache.modelId method bp1 bp2) (some [0, 1])) } := by
  unfold UnifiedModelCache.register_method_model
  rw [if_pos (Or.inl rfl)]

/-- C6: after register_method_model("M", model, [0, 1]) on any prior cache
state and with any bundle-path attributes on the model, get_reference_model
under a runner whose baseline_method is "M" returns the same model instance
without invoking the external loader, whatever the reference path and the
loader outcome would have been. -/
theorem register_then_get_returns_model_without_load (st : UCState)
    (model : Nat) (bp1 bp2 : Option String) (refPath : Option String)
    (loadResult : Option Nat) :
    (UnifiedModelCache.get_reference_model
        (UnifiedModelCache.register_method_model st "M" model bp1 bp2 (some [0, 1]))
        (some "M") refPath loadResult).result = some model ∧
    (UnifiedModelCache.get_reference_model
        (UnifiedModelCache.register_method_model st "M" model bp1 bp2 (some [0, 1]))
        (some "M") refPath loadResult).loaderInvoked = false := by
  set st' := UnifiedModelCache.register_method_model st "M" model bp1 bp2 (some [0, 1])
    with hst'
  set mid := UnifiedModelCache.modelId "M" bp1 bp2 with hmid
  set ck := UnifiedModelCache.get_model_cache_key mid (some [0, 1]) with hck
  have hstate := register_method_model_state st "M" model bp1 bp2
  have hbm : lookupKey st'._method_to_model "M" = some ck := by
    rw [hst', hstate]
    exact lookupKey_setKey_self _ _ _
  have hcc : lookupKey st'._cache ck = some (model, true) := by
    rw [hst', hstate]
    show lookupKey (setKey (setKey st._cache ck (model, true))
      (UnifiedModelCache.supersetRefKey mid) (model, true)) ck = some (model, true)
    rw [lookupKey_setKey_ne _ _ _ _ (key_ne_supersetRefKey mid)]
    exact lookupKey_setKey_self _ _ _
  have hhit : baselineHit st'._method_to_model st'._cache (some "M") = some model := by
    simp [baselineHit, hbm, hcc]
  obtain ⟨ck', hck'⟩ := get_eq_of_baselineHit st' (some "M") refPath loadResult model hhit
  rw [hck']
  exact ⟨rfl, rfl⟩

/-- C10: once a model is registered under the runner's effective baseline
method name with a live weak reference, get_reference_model returns that same
model instance without loading, for every resolved reference path and loader
outcome — so two calls with different parameter vectors receive the identical
model. -/
theorem baseline_hit_independent_of_params (st : UCState)
    (baselineMethodAttr : Option String) (k : String) (model : Nat)
    (rp1 rp2 : Option String) (lr1 lr2 : Option Nat)
    (h1 : lookupKey st._method_to_model
        (baselineMethodAttr.getD "VFI_HD_GRID") = some k)
    (h2 : lookupKey st._cache k = some (model, true)) :
    (UnifiedModelCache.get_reference_model st baselineMethodAttr rp1 lr1).result
        = some model ∧
    (UnifiedModelCache.get_reference_model st baselineMethodAttr rp2 lr2).result
        = some model ∧
    (UnifiedModelCache.get_reference_model st baselineMethodAttr rp1 lr1).loaderInvoked
        = false := by
  have hhit : baselineHit st._method_to_model st._cache baselineMethodAttr
      = some model := by
    simp [baselineHit, h1, h2]
  obtain ⟨ck1, he1⟩ :=
    get_eq_of_baselineHit st baselineMethodAttr rp1 lr1 model hhit
  obtain ⟨ck2, he2⟩ :=
    get_eq_of_baselineHit st baselineMethodAttr rp2 lr2 model hhit
  rw [he1, he2]
  exact ⟨rfl, rfl, rfl⟩

/-- C10 witness: in a concrete state with a live registration for baseline
method "M", two calls with different resolved paths and loader outcomes both
return model 5 and the first call does not invoke the loader. -/
theorem baseline_hit_independent_of_params_witness :
    lookupKey (⟨[("k", (5, true))], [], [], [("M", "k")]⟩ : UCState)._method_to_model
        ((some "M").getD "VFI_HD_GRID") = some "k" ∧
    lookupKey (⟨[("k", (5, true))], [], [], [("M", "k")]⟩ : UCState)._cache "k"
        = some (5, true) ∧
    (UnifiedModelCache.get_reference_model ⟨[("k", (5, true))], [], [], [("M", "k")]⟩
        (some "M") (some "pathA") (some 7)).result = some 5 ∧
    (UnifiedModelCache.get_reference_model ⟨[("k", (5, true))], [], [], [("M", "k")]⟩
        (some "M") (some "pathB") (some 8)).result = some 5 := by
  refine ⟨by decide, by decide, ?_⟩
  have h := baseline_hit_independent_of_params
    ⟨[("k", (5, true))], [], [], [("M", "k")]⟩ (some "M") "k" 5
    (some "pathA") (some "pathB") (some 7) (some 8) (by decide) (by decide)
  exact ⟨h.1, h.2.1⟩

/- ------------------------------------------------------------------ -/
/- Theorems for claim C4                                               -/
/- ------------------------------------------------------------------ -/

/-- C4 counterexample: with no baseline registration and a reference bundle
path that does not resolve, get_reference_model invokes the loader, which
returns model 3; the model is returned but nothing is cached — the state is
unchanged, with no weak reference, strong reference or access count — so the
claim fails for this runner and parameter vector. -/
theorem load_without_path_not_cached :
    (UnifiedModelCache.get_reference_model ⟨[], [], [], []⟩ none none
        (some 3)).loaderInvoked = true ∧
    (UnifiedModelCache.get_reference_model ⟨[], [], [], []⟩ none none
        (some 3)).result = some 3 ∧
    (UnifiedModelCache.get_reference_model ⟨[], [], [], []⟩ none none
        (some 3)).state = ⟨[], [], [], []⟩ :=
  ⟨rfl, rfl, rfl⟩

/-- C4 amended: whenever get_reference_model misses both the baseline-method
registration and the superset-key entry (equivalently, the external loader is
invoked), the loader returns a model, and the reference bundle path resolves,
the model is cached under the superset key — weak reference, strong reference
and access count 1 — and returned. -/
theorem load_caches_under_superset_key (st : UCState) (b : Option String)
    (p : String) (m : Nat)
    (h : (UnifiedModelCache.get_reference_model st b (some p)
        (some m)).loaderInvoked = true) :
    (UnifiedModelCache.get_reference_model st b (some p) (some m)).result
        = some m ∧
    lookupKey (UnifiedModelCache.get_reference_model st b (some p)
        (some m)).state._cache (UnifiedModelCache.supersetRefKey p)
        = some (m, true) ∧
    lookupKey (UnifiedModelCache.get_reference_model st b (some p)
        (some m)).state._strong_refs (UnifiedModelCache.supersetRefKey p)
        = some m ∧
    lookupKey (UnifiedModelCache.get_reference_model st b (some p)
        (some m)).state._access_count (UnifiedModelCache.supersetRefKey p)
        = some 1 := by
  rcases hb : baselineHit st._method_to_model st._cache b with _ | mb
  · rcases hs : supersetHit st._cache (some p) with _ | ms
    · have he := get_eq_load st b (some p) (some m) hb hs
      rw [he]
      have hstate : (UnifiedModelCache.loadAndCache st (some p) (some m)).state =
          { st with
            _cache := setKey st._cache (UnifiedModelCache.supersetRefKey p) (m, true),
            _strong_refs := setKey st._strong_refs
              (UnifiedModelCache.supersetRefKey p) m,
            _access_count := setKey st._access_count
              (UnifiedModelCache.supersetRefKey p) 1 } := rfl
      rw [hstate]
      exact ⟨rfl, lookupKey_setKey_self _ _ _, lookupKey_setKey_self _ _ _,
        lookupKey_setKey_self _ _ _⟩
    · obtain ⟨ck, he⟩ := get_eq_of_supersetHit st b (some p) (some m) ms hb hs
      rw [he] at h
      exact absurd h (by simp)
  · obtain ⟨ck, he⟩ := get_eq_of_baselineHit st b (some p) (some m) mb hb
    rw [he] at h
    exact absurd h (by simp)

/-- C4 witness: on an empty cache with resolving path "b" and loader result
3, the loader is invoked and model 3 ends up cached under the superset key
with a weak reference, a strong reference and access count 1. -/
theorem load_caches_under_superset_key_witness :
    (UnifiedModelCache.get_reference_model ⟨[], [], [], []⟩ none (some "b")
        (some 3)).loaderInvoked = true ∧
    ((UnifiedModelCache.get_reference_model ⟨[], [], [], []⟩ none (some "b")
        (some 3)).result = some 3 ∧
     lookupKey (UnifiedModelCache.get_reference_model ⟨[], [], [], []⟩ none
        (some "b") (some 3)).state._cache
        (UnifiedModelCache.supersetRefKey "b") = some (3, true) ∧
     lookupKey (UnifiedModelCache.get_reference_model ⟨[], [], [], []⟩ none
        (some "b") (some 3)).state._strong_refs
        (UnifiedModelCache.supersetRefKey "b") = some 3 ∧
     lookupKey (UnifiedModelCache.get_reference_model ⟨[], [], [], []⟩ none
        (some "b") (some 3)).state._access_count
        (UnifiedModelCache.supersetRefKey "b") = some 1) :=
  ⟨rfl, load_caches_under_superset_key ⟨[], [], [], []⟩ none "b" 3 rfl⟩

/- ------------------------------------------------------------------ -/
/- Theorems for claim C5                                               -/
/- ------------------------------------------------------------------ -/

/-- C5: for two calls to get_reference_model on the same runner whose
parameter vectors resolve to the same reference bundle path, separated by any
number of strong-reference releases but no clear(), the model returned by the
second call is the identical instance returned by the first call (weak
references stay live here because the compared first result is still held by
the caller). -/
theorem same_path_returns_identical_instance (st : UCState) (b : Option String)
    (p : String) (lr1 lr2 : Option Nat) (n : Nat) (m : Nat)
    (h : (UnifiedModelCache.get_reference_model st b (some p) lr1).result
        = some m) :
    (UnifiedModelCache.get_reference_model
        (iterClearStrong n
          (UnifiedModelCache.get_reference_model st b (some p) lr1).state)
        b (some p) lr2).result = some m := by
  rcases hb : baselineHit st._method_to_model st._cache b with _ | mb
  · rcases hs : supersetHit st._cache (some p) with _ | ms
    · -- both tiers missed: the first call loaded and cached under the
      -- superset key
      have he := get_eq_load st b (some p) lr1 hb hs
      rw [he] at h
      rw [loadAndCache_result] at h
      subst h
      rw [he]
      have hstate : (UnifiedModelCache.loadAndCache st (some p) (some m)).state =
          { st with
            _cache := setKey st._cache (UnifiedModelCache.supersetRefKey p) (m, true),
            _strong_refs := setKey st._strong_refs
              (UnifiedModelCache.supersetRefKey p) m,
            _access_count := setKey st._access_count
              (UnifiedModelCache.supersetRefKey p) 1 } := rfl
      rw [hstate]
      set st2 := iterClearStrong n
        { st with
          _cache := setKey st._cache (UnifiedModelCache.supersetRefKey p) (m, true),
          _strong_refs := setKey st._strong_refs
            (UnifiedModelCache.supersetRefKey p) m,
          _access_count := setKey st._access_count
            (UnifiedModelCache.supersetRefKey p) 1 } with hst2
      have hc2 : st2._cache = setKey st._cache
          (UnifiedModelCache.supersetRefKey p) (m, true) :=
        (iterClearStrong_cache n _).1
      have hm2 : st2._method_to_model = st._method_to_model :=
        (iterClearStrong_cache n _).2
      rcases hmm : lookupKey st._method_to_model (b.getD "VFI_HD_GRID") with _ | ck
      · have hb2 : baselineHit st2._method_to_model st2._cache b = none := by
          simp [baselineHit, hm2, hmm]
        have hs2 : supersetHit st2._cache (some p) = some m := by
          simp [supersetHit, hc2, lookupKey_setKey_self]
        obtain ⟨ck2, he2⟩ := get_eq_of_supersetHit st2 b (some p) lr2 m hb2 hs2
        rw [he2]
      · by_cases hck : ck = UnifiedModelCache.supersetRefKey p
        · subst hck
          have hb2 : baselineHit st2._method_to_model st2._cache b = some m := by
            simp [baselineHit, hm2, hmm, hc2, lookupKey_setKey_self]
          obtain ⟨ck2, he2⟩ := get_eq_of_baselineHit st2 b (some p) lr2 m hb2
          rw [he2]
        · have hb2 : baselineHit st2._method_to_model st2._cache b = none := by
            have hlk : lookupKey st2._cache ck = lookupKey st._cache ck := by
              rw [hc2]
              exact lookupKey_setKey_ne _ _ _ _ hck
            simp only [baselineHit, hm2, hmm, hlk]
            simpa [baselineHit, hmm] using hb
          have hs2 : supersetHit st2._cache (some p) = some m := by
            simp [supersetHit, hc2, lookupKey_setKey_self]
          obtain ⟨ck2, he2⟩ := get_eq_of_supersetHit st2 b (some p) lr2 m hb2 hs2
          rw [he2]
    · -- superset hit: the first call returned the cached model, only the
      -- access count changed
      obtain ⟨ck, he⟩ := get_eq_of_supersetHit st b (some p) lr1 ms hb hs
      rw [he] at h
      simp only [Option.some.injEq] at h
      subst h
      rw [he]
      set st2 := iterClearStrong n
        { st with _access_count := bumpCount st._access_count ck } with hst2
      have hc2 : st2._cache = st._cache := (iterClearStrong_cache n _).1
      have hm2 : st2._method_to_model = st._method_to_model :=
        (iterClearStrong_cache n _).2
      have hb2 : baselineHit st2._method_to_model st2._cache b = none := by
        rw [show baselineHit st2._method_to_model st2._cache b =
          baselineHit st._method_to_model st._cache b by rw [hc2, hm2]]
        exact hb
      have hs2 : supersetHit st2._cache (some p) = some ms := by
        rw [hc2]
        exact hs
      obtain ⟨ck2, he2⟩ := get_eq_of_supersetHit st2 b (some p) lr2 ms hb2 hs2
      rw [he2]
  · -- baseline hit: the first call returned the registered model
    obtain ⟨ck, he⟩ := get_eq_of_baselineHit st b (some p) lr1 mb hb
    rw [he] at h
    simp only [Option.some.injEq] at h
    subst h
    rw [he]
    set st2 := iterClearStrong n
      { st with _access_count := bumpCount st._access_count ck } with hst2
    have hc2 : st2._cache = st._cache := (iterClearStrong_cache n _).1
    have hm2 : st2._method_to_model = st._method_to_model :=
      (iterClearStrong_cache n _).2
    have hb2 : baselineHit st2._method_to_model st2._cache b = some mb := by
      rw [show baselineHit st2._method_to_model st2._cache b =
        baselineHit st._method_to_model st._cache b by rw [hc2, hm2]]
      exact hb
    obtain ⟨ck2, he2⟩ := get_eq_of_baselineHit st2 b (some p) lr2 mb hb2
    rw [he2]

/-- C5 witness: on an empty cache, a first call for path "b" loads model 3;
after one strong-reference release, a second call resolving to the same path
returns the identical model 3 even though its own loader outcome would have
been model 4. -/
theorem same_path_returns_identical_instance_witness :
    (UnifiedModelCache.get_reference_model ⟨[], [], [], []⟩ none (some "b")
        (some 3)).result = some 3 ∧
    (UnifiedModelCache.get_reference_model
        (iterClearStrong 1
          (UnifiedModelCache.get_reference_model ⟨[], [], [], []⟩ none
            (some "b") (some 3)).state)
        none (some "b") (some 4)).result = some 3 :=
  ⟨rfl, same_path_returns_identical_instance ⟨[], [], [], []⟩ none "b"
    (some 3) (some 4) 1 3 rfl⟩

/- ------------------------------------------------------------------ -/
/- Trimmer lemmas                                                      -/
/- ------------------------------------------------------------------ -/

theorem trimPerch_fine (p : Perch) (h : perchFine p = true) :
    trimPerch p = some (trimPerchT p) := by
  rcases hs : p.sol with _ | s
  · simp [trimPerch, trimPerchT, hs]
  · cases s with
    | obj jit egm => simp [trimPerch, trimPerchT, trimSolObj, hs]
    | raising => simp [perchFine, hs] at h

theorem runPerches_fine (l : List (String × Perch)) (h : perchesFine l = true) :
    runPerches l = (l.map trimPerchPairT, true) := by
  induction l with
  | nil => simp [runPerches]
  | cons hd tl ih =>
    obtain ⟨nm, p⟩ := hd
    simp only [perchesFine, List.all_cons, Bool.and_eq_true] at h
    have hp := trimPerch_fine p h.1
    have ht := ih h.2
    simp [runPerches, hp, ht, trimPerchPairT]

theorem runStages_fine (l : List (String × Stage)) (h : stagesFine l = true) :
    runStages l = (l.map trimStagePairT, true) := by
  induction l with
  | nil => simp [runStages]
  | cons hd tl ih =>
    obtain ⟨nm, s⟩ := hd
    simp only [stagesFine, List.all_cons, Bool.and_eq_true] at h
    have hp := runPerches_fine s.perches h.1
    have ht := ih h.2
    simp [runStages, hp, ht, trimStagePairT]

theorem runPeriods_fine (l : List Period) (h : periodsFine l = true) :
    runPeriods l = (l.map trimPeriodT, true) := by
  induction l with
  | nil => simp [runPeriods]
  | cons per tl ih =>
    simp only [periodsFine, List.all_cons, Bool.and_eq_true] at h
    have hp := runStages_fine per.stages h.1
    have ht := ih h.2
    simp [runPeriods, hp, ht, trimPeriodT]

theorem runPerches_raise (pre suf : List (String × Perch)) (nm : String)
    (pr : Perch) (hpre : perchesFine pre = true)
    (hr : pr.sol = some SolObj.raising) :
    runPerches (pre ++ (nm, pr) :: suf) =
      (pre.map trimPerchPairT ++ (nm, pr) :: suf, false) := by
  induction pre with
  | nil => simp [runPerches, trimPerch, hr, trimSolObj]
  | cons hd tl ih =>
    obtain ⟨nm', p⟩ := hd
    simp only [perchesFine, List.all_cons, Bool.and_eq_true] at hpre
    have hp := trimPerch_fine p hpre.1
    have ht := ih hpre.2
    simp [runPerches, hp, ht, trimPerchPairT]

theorem runStages_raise (S1 S2 : List (String × Stage)) (sn : String)
    (stg : Stage) (q : List (String × Perch))
    (hS1 : stagesFine S1 = true)
    (hq : runPerches stg.perches = (q, false)) :
    runStages (S1 ++ (sn, stg) :: S2) =
      (S1.map trimStagePairT ++ (sn, ⟨q⟩) :: S2, false) := by
  induction S1 with
  | nil => simp [runStages, hq]
  | cons hd tl ih =>
    obtain ⟨nm', s⟩ := hd
    simp only [stagesFine, List.all_cons, Bool.and_eq_true] at hS1
    have hp := runPerches_fine s.perches hS1.1
    have ht := ih hS1.2
    simp [runStages, hp, ht, trimStagePairT]

theorem runPeriods_raise (P1 P2 : List Period) (per : Period)
    (ss : List (String × Stage)) (hP1 : periodsFine P1 = true)
    (hss : runStages per.stages = (ss, false)) :
    runPeriods (P1 ++ per :: P2) =
      (P1.map trimPeriodT ++ ⟨ss⟩ :: P2, false) := by
  induction P1 with
  | nil => simp [runPeriods, hss]
  | cons hd tl ih =>
    simp only [periodsFine, List.all_cons, Bool.and_eq_true] at hP1
    have hp := runStages_fine hd.stages hP1.1
    have ht := ih hP1.2
    simp [runPeriods, hp, ht, trimPeriodT]

theorem stages_flatMap_trim (S : List (String × Stage)) :
    (S.map trimStagePairT).flatMap (fun ps => ps.2.perches) =
      (S.flatMap (fun ps => ps.2.perches)).map trimPerchPairT := by
  induction S with
  | nil => simp
  | cons hd tl ih =>
    obtain ⟨nm, s⟩ := hd
    simp [trimStagePairT, List.map_append, ih]

theorem modelPerches_map_trim (l : List Period) :
    modelPerches ⟨l.map trimPeriodT⟩ =
      (modelPerches ⟨l⟩).map trimPerchPairT := by
  induction l with
  | nil => simp [modelPerches]
  | cons per tl ih =>
    simp only [modelPerches, List.map_cons, List.flatMap_cons] at *
    rw [List.map_append, ← ih]
    congr 1
    exact stages_flatMap_trim per.stages

theorem forallTwo_map_self {α : Type} (R : α → α → Prop) (f : α → α)
    (l : List α) (h : ∀ a ∈ l, R a (f a)) :
    List.Forall₂ R l (l.map f) := by
  induction l with
  | nil => simp
  | cons hd tl ih =>
    exact List.Forall₂.cons (h hd (by simp))
      (ih (fun a ha => h a (by simp [ha])))

theorem perchFine_of_noRaising (m : Model) (h : noRaisingB m = true) :
    ∀ pr ∈ modelPerches m, perchFine pr.2 = true := by
  intro pr hpr
  simp only [modelPerches, List.mem_flatMap] at hpr
  obtain ⟨per, hper, ps, hps, hpr⟩ := hpr
  simp only [noRaisingB, periodsFine, List.all_eq_true] at h
  have h1 := h per hper
  simp only [stagesFine, List.all_eq_true] at h1
  have h2 := h1 ps hps
  simp only [perchesFine, List.all_eq_true] at h2
  exact h2 pr hpr

theorem perchTrimmed_of_fine (p : Perch) (h : perchFine p = true) :
    PerchTrimmed p (trimPerchT p) := by
  rcases hs : p.sol with _ | s
  · simp [PerchTrimmed, trimPerchT, trimPerch, hs]
  · cases s with
    | obj jit egm =>
      rcases jit with _ | j
      · simp [PerchTrimmed, trimPerchT, trimPerch, trimSolObj, hs]
      · simp [PerchTrimmed, trimPerchT, trimPerch, trimSolObj, trim_jit, hs]
    | raising => simp [perchFine, hs] at h

/- ------------------------------------------------------------------ -/
/- Theorems for claims C7 and C8                                       -/
/- ------------------------------------------------------------------ -/

/-- C8: for every model none of whose perches raises on attribute access,
_cleanup_model_memory walks all perches and, on each one, sets the present
Q-function, multiplier (lambda_) and value-function (vlu) attributes of the
solution to None, clears the EGM data, and leaves the policy attribute (and
perches without a live solution) unchanged. -/
theorem trim_clears_fields_keeps_policy (m : Model) (h : noRaisingB m = true) :
    List.Forall₂ (fun a b => a.1 = b.1 ∧ PerchTrimmed a.2 b.2)
      (modelPerches m) (modelPerches (_cleanup_model_memory m)) := by
  have hclean : _cleanup_model_memory m = ⟨m.periods_list.map trimPeriodT⟩ := by
    unfold _cleanup_model_memory
    rw [runPeriods_fine m.periods_list h]
  rw [hclean, modelPerches_map_trim m.periods_list]
  exact forallTwo_map_self _ _ _
    (fun a ha => ⟨rfl, perchTrimmed_of_fine a.2 (perchFine_of_noRaising m h a ha)⟩)

/-- Concrete model used only by the C8 witness: one period, one stage, one
perch with solution arrays present and one perch without a solution. -/
def modelTrimW : Model :=
  ⟨[⟨[("s", ⟨[("a", ⟨some (SolObj.obj
        (some ⟨some (some 5), some (some 6), some none, some (some 9)⟩)
        (some (some 2)))⟩),
      ("b", ⟨none⟩)]⟩)]⟩]⟩

/-- C8 witness: the trim theorem instantiated at the concrete two-perch
model. -/
theorem trim_clears_fields_keeps_policy_witness :
    noRaisingB modelTrimW = true ∧
    List.Forall₂ (fun a b => a.1 = b.1 ∧ PerchTrimmed a.2 b.2)
      (modelPerches modelTrimW)
      (modelPerches (_cleanup_model_memory modelTrimW)) :=
  ⟨by decide, trim_clears_fields_keeps_policy modelTrimW (by decide)⟩

/-- Concrete model used only by the C7 counterexample: its first perch
raises on attribute access, its second perch holds live solution arrays. -/
def modelRaise : Model :=
  ⟨[⟨[("s", ⟨[("r", ⟨some SolObj.raising⟩),
      ("b", ⟨some (SolObj.obj
        (some ⟨some (some 5), some (some 6), some (some 7), some (some 9)⟩)
        (some (some 2)))⟩)]⟩)]⟩]⟩

/-- C7 counterexample: in a model whose single raising perch comes first,
_cleanup_model_memory completes but returns the model entirely unchanged, so
the other perch keeps its Q-function, multiplier, value-function and EGM data
and is not trimmed — contradicting the claim that every other perch is still
trimmed. -/
theorem trim_abort_leaves_later_perch_untrimmed :
    _cleanup_model_memory modelRaise = modelRaise ∧
    ¬ PerchTrimmed
        (⟨some (SolObj.obj
          (some ⟨some (some 5), some (some 6), some (some 7), some (some 9)⟩)
          (some (some 2)))⟩ : Perch)
        (⟨some (SolObj.obj
          (some ⟨some (some 5), some (some 6), some (some 7), some (some 9)⟩)
          (some (some 2)))⟩ : Perch) := by
  constructor
  · rfl
  · intro hcon
    simp only [PerchTrimmed] at hcon
    exact absurd hcon (by decide)

/-- C7 amended: when the solution object of one perch raises (with an
exception hasattr does not swallow), _cleanup_model_memory completes without
propagating the exception, every perch strictly before the raising perch in
walk order is trimmed, and the raising perch and every perch after it are
left unchanged. -/
theorem trim_stops_at_raising_perch
    (P1 P2 : List Period) (S1 S2 : List (String × Stage))
    (Q1 Q2 : List (String × Perch)) (sn pn : String) (pr : Perch)
    (hP1 : periodsFine P1 = true) (hS1 : stagesFine S1 = true)
    (hQ1 : perchesFine Q1 = true) (hr : pr.sol = some SolObj.raising) :
    _cleanup_model_memory
        ⟨P1 ++ ⟨S1 ++ (sn, ⟨Q1 ++ (pn, pr) :: Q2⟩) :: S2⟩ :: P2⟩ =
      ⟨P1.map trimPeriodT ++
        ⟨S1.map trimStagePairT ++
          (sn, ⟨Q1.map trimPerchPairT ++ (pn, pr) :: Q2⟩) :: S2⟩ :: P2⟩ := by
  have hq := runPerches_raise Q1 Q2 pn pr hQ1 hr
  have hs := runStages_raise S1 S2 sn ⟨Q1 ++ (pn, pr) :: Q2⟩
    (Q1.map trimPerchPairT ++ (pn, pr) :: Q2) hS1 hq
  have hp := runPeriods_raise P1 P2 ⟨S1 ++ (sn, ⟨Q1 ++ (pn, pr) :: Q2⟩) :: S2⟩
    (S1.map trimStagePairT ++ (sn, ⟨Q1.map trimPerchPairT ++ (pn, pr) :: Q2⟩) :: S2)
    hP1 hs
  unfold _cleanup_model_memory
  rw [hp]

/-- C7 witness: the amended theorem instantiated at a concrete model with one
trimmable perch before the raising perch and one after it. -/
theorem trim_stops_at_raising_perch_witness :
    periodsFine [] = true ∧ stagesFine [] = true ∧
    perchesFine [("a", (⟨some (SolObj.obj none (some (some 2)))⟩ : Perch))] = true ∧
    (⟨some SolObj.raising⟩ : Perch).sol = some SolObj.raising ∧
    _cleanup_model_memory
        ⟨[] ++ ⟨[] ++ ("s", ⟨[("a", ⟨some (SolObj.obj none (some (some 2)))⟩)] ++
          ("r", ⟨some SolObj.raising⟩) ::
          [("b", ⟨some (SolObj.obj none (some (some 4)))⟩)]⟩) :: []⟩ :: []⟩ =
      ⟨List.map trimPeriodT [] ++
        ⟨List.map trimStagePairT [] ++
          ("s", ⟨List.map trimPerchPairT
              [("a", ⟨some (SolObj.obj none (some (some 2)))⟩)] ++
            ("r", ⟨some SolObj.raising⟩) ::
            [("b", ⟨some (SolObj.obj none (some (some 4)))⟩)]⟩) :: []⟩ :: []⟩ :=
  ⟨by decide, by decide, by decide, rfl,
    trim_stops_at_raising_perch [] [] [] []
      [("a", ⟨some (SolObj.obj none (some (some 2)))⟩)]
      [("b", ⟨some (SolObj.obj none (some (some 4)))⟩)]
      "s" "r" ⟨some SolObj.raising⟩ (by decide) (by decide) (by decide) rfl⟩
